import Mathlib

set_option maxRecDepth 8000

/-!
Shallow embedding of the CNAB240 extraction scripts of this repository
(`src/teste-py/teste.py`, `src/teste-py/teste_temp.py`,
`src/analise_detalhada.py`) and proofs about the behaviour the
specification attributes to them.

Python strings are modelled by Lean `String`/`List Char`:
`s[a:b]` becomes `pySlice`, `s.strip()` becomes `pyStrip` (`trimL`
on character lists), `s.split()` becomes `splitWs`, `int(s)` on a digit
string becomes `pyIntDigits`, and `''.join(filter(str.isdigit, s))`
becomes `pyFilterDigits`.  Monetary values, which the scripts compute as
`int(...) / 100`, are modelled in exact arithmetic as `ℚ`.
-/

namespace CNAB

/-- Python slice `s[a:b]` (with `a ≤ b`): characters `a` to `b-1`, tolerant
of out-of-range indices. -/
def pySlice (s : String) (a b : Nat) : String :=
  String.mk ((s.data.drop a).take (b - a))

/-- Python slice `s[a:]`: characters from `a` on. -/
def pySliceFrom (s : String) (a : Nat) : String :=
  String.mk (s.data.drop a)

/-- `''.join(filter(str.isdigit, s))` of `teste.py` line 42. -/
def pyFilterDigits (s : String) : String :=
  String.mk (s.data.filter Char.isDigit)

/-- Decimal value of a digit string, as Python's `int` computes it on a
string of digits. -/
def pyIntDigits (s : String) : Nat :=
  s.data.foldl (fun a c => 10 * a + (c.toNat - 48)) 0

/-- `teste.py` lines 41-48: keep the digit characters of the raw currency
field; an empty digit string yields 0, otherwise the digit string is read
as a decimal integer (a count of minor units / centavos). -/
def decodeAmountCents (raw : String) : Nat :=
  let limpo := pyFilterDigits raw
  if limpo = "" then 0 else pyIntDigits limpo

/-- Modelled from the spec: the `DecodeWarning` taxonomy is not present in
`src/`; per §4.4 a `DecodeWarning` is recorded exactly when the raw
currency field contains no digit character at all. -/
def amountDecodeWarning (raw : String) : Bool :=
  pyFilterDigits raw = ""

/-- Big-endian decimal value of a list of digit characters. -/
def valChars (cs : List Char) : Nat :=
  cs.foldl (fun a c => 10 * a + (c.toNat - 48)) 0

theorem valChars_append (cs : List Char) (c : Char) :
    valChars (cs ++ [c]) = 10 * valChars cs + (c.toNat - 48) := by
  simp [valChars, List.foldl_append]

theorem pyIntDigits_eq_valChars (s : String) : pyIntDigits s = valChars s.data := rfl

/-- The foldl-style decimal reading agrees with Mathlib's little-endian
`Nat.ofDigits` applied to the reversed digit list. -/
theorem valChars_eq_ofDigits (cs : List Char) :
    valChars cs = Nat.ofDigits 10 ((cs.map (fun c => c.toNat - 48)).reverse) := by
  induction cs using List.reverseRecOn with
  | nil => simp [valChars, Nat.ofDigits]
  | append_singleton cs c ih =>
      rw [valChars_append, ih]
      simp [Nat.ofDigits_cons, Nat.mul_comm]
      omega

/-- Python `s.strip()` on a character list: drop whitespace from both ends. -/
def trimL (cs : List Char) : List Char :=
  ((cs.dropWhile Char.isWhitespace).reverse.dropWhile Char.isWhitespace).reverse

/-- Python `s.strip()`. -/
def pyStrip (s : String) : String :=
  String.mk (trimL s.data)

/-- Python `s.replace("  ", " ")`: replace every non-overlapping pair of
spaces, scanning left to right, by a single space. -/
def squeezeSpaces : List Char → List Char
  | ' ' :: ' ' :: cs => ' ' :: squeezeSpaces cs
  | c :: cs => c :: squeezeSpaces cs
  | [] => []

/-- Python `s.split()` worker: split on runs of whitespace, discarding
empty pieces; `acc` holds the characters of the current token, reversed. -/
def splitWsAux (acc : List Char) : List Char → List (List Char)
  | [] => if acc.isEmpty then [] else [acc.reverse]
  | c :: cs =>
    if c.isWhitespace then
      if acc.isEmpty then splitWsAux [] cs
      else acc.reverse :: splitWsAux [] cs
    else splitWsAux (c :: acc) cs

/-- Python `s.split()`: whitespace-separated tokens, no empties. -/
def splitWs (cs : List Char) : List (List Char) :=
  splitWsAux [] cs

/-- The email test of `teste.py` line 116: the token contains `'@'` and
`'.'` and is longer than 5 characters. -/
def emailTok (t : List Char) : Bool :=
  t.contains '@' && t.contains '.' && decide (5 < t.length)

/-- `teste.py` lines 111-118: if the trailing free text contains `'@'`,
take the first whitespace-separated token that passes `emailTok`
(stripped); otherwise the email is empty. -/
def extractEmail (resto : List Char) : String :=
  if resto.contains '@' then
    match (splitWs resto).find? emailTok with
    | some t => String.mk (trimL t)
    | none => ""
  else ""

/-- Segment-J test of `teste.py` line 16 (also `teste_temp.py` line 9):
record-type marker `"3"` at `[7:8]` and segment code `"J"` at `[13:14]`. -/
def isJ (l : String) : Bool :=
  pySlice l 7 8 == "3" && pySlice l 13 14 == "J"

/-- Segment-B test of `teste.py` line 98. -/
def isB (l : String) : Bool :=
  pySlice l 7 8 == "3" && pySlice l 13 14 == "B"

/-- The guard of `teste.py` lines 16-18: a segment-J line that is long
enough to extract fields from. -/
def isJok (l : String) : Bool :=
  isJ l && decide (240 ≤ l.length)

/-- Segment kinds distinguished by the extraction pipeline: primary/payer
detail (`J`), complementary address detail (`B`), anything else. -/
inductive SegmentKind
  | detailJ
  | segB
  | unknown
  deriving DecidableEq

/-- Classification of a line from the two fixed marker offsets, as the
pipeline scripts test them. -/
def classify (l : String) : SegmentKind :=
  if isJ l then .detailJ
  else if isB l then .segB
  else .unknown

/-- The payment dictionary built by `teste.py` lines 63-93 (base fields)
and 121-132 (segment-B fields). -/
structure Pagamento where
  favorecido_nome : String
  pagador_nome : String
  cnpj_pagador : String
  banco_favorecido : String
  valor : ℚ
  data_pagamento : String
  documento : String
  codigo_banco : String
  codigo_lote : String
  tipo_registro : String
  numero_registro : String
  segmento : String
  codigo_movimento : String
  codigo_camara : String
  informacoes : String
  descontos : String
  acrescimos : String
  codigo_barras : String
  endereco_completo : String
  logradouro : String
  numero_endereco : String
  complemento : String
  bairro : String
  cidade : String
  cep : String
  uf : String
  email : String
  cnpj_favorecido : String
  deriving DecidableEq

/-- The base payment record of `teste.py` lines 20-48 and 63-93, built
from the primary segment-J line and the (possibly empty) payer fields
taken from a second segment-J line. -/
def mkBase (linha cnpj_pagador pagador_nome : String) : Pagamento :=
  { favorecido_nome := pyStrip (pySlice linha 61 91)
    pagador_nome := pyStrip pagador_nome
    cnpj_pagador := cnpj_pagador
    banco_favorecido := pyStrip (pySlice linha 20 23)
    valor := (decodeAmountCents (pyStrip (pySlice linha 26 36)) : ℚ) / 100
    data_pagamento := pyStrip (pySlice linha 91 99)
    documento := pyStrip (pySlice linha 41 61)
    codigo_banco := pyStrip (pySlice linha 0 3)
    codigo_lote := pyStrip (pySlice linha 3 7)
    tipo_registro := pyStrip (pySlice linha 7 8)
    numero_registro := pyStrip (pySlice linha 8 13)
    segmento := pyStrip (pySlice linha 13 14)
    codigo_movimento := pyStrip (pySlice linha 14 20)
    codigo_camara := pyStrip (pySlice linha 23 26)
    informacoes := pyStrip (pySlice linha 200 220)
    descontos := pyStrip (pySlice linha 114 129)
    acrescimos := pyStrip (pySlice linha 129 143)
    codigo_barras := pyStrip (pySlice linha 17 61)
    endereco_completo := ""
    logradouro := ""
    numero_endereco := ""
    complemento := ""
    bairro := ""
    cidade := ""
    cep := ""
    uf := ""
    email := ""
    cnpj_favorecido := "" }

/-- The segment-B merge of `teste.py` lines 99-132: overwrite the ten
complementary keys of the in-progress record from the segment-B line. -/
def mergeSegB (p : Pagamento) (prox : String) : Pagamento :=
  let cnpj_favorecido := pyStrip (pySlice prox 18 32)
  let logradouro := pyStrip (pySlice prox 32 62)
  let numero_endereco := pyStrip (pySlice prox 62 67)
  let complemento := pyStrip (pySlice prox 67 82)
  let bairro := pyStrip (pySlice prox 82 97)
  let cidade := pyStrip (pySlice prox 97 117)
  let cep := pyStrip (pySlice prox 117 125)
  let uf := pyStrip (pySlice prox 125 127)
  let resto := trimL (pySliceFrom prox 127).data
  { p with
    cnpj_favorecido := cnpj_favorecido
    endereco_completo :=
      String.mk (trimL (squeezeSpaces
        (logradouro ++ ", " ++ numero_endereco ++ " " ++ complemento
          ++ " - " ++ bairro ++ " - " ++ cidade ++ "/" ++ uf
          ++ " - CEP: " ++ cep).data))
    logradouro := logradouro
    numero_endereco := numero_endereco
    complemento := complemento
    bairro := bairro
    cidade := cidade
    cep := cep
    uf := uf
    email := extractEmail resto }

/-- The extraction loop of `teste.py` lines 11-139 (`while i < len(linhas)`
with the conditional `i += 1` skips), written as list recursion: the
recursive argument is the tail of the input that the cursor `i` points at. -/
def extrair : List String → List Pagamento
  | [] => []
  | [linha] => if isJok linha then [mkBase linha "" ""] else []
  | linha :: l2 :: rest2 =>
    if isJok linha then
      if isJ l2 then
        match rest2 with
        | [] => [mkBase linha (pyStrip (pySlice l2 21 35)) (pyStrip (pySlice l2 35 58))]
        | l3 :: rest3 =>
          if isB l3 then
            mergeSegB (mkBase linha (pyStrip (pySlice l2 21 35)) (pyStrip (pySlice l2 35 58))) l3
              :: extrair rest3
          else
            mkBase linha (pyStrip (pySlice l2 21 35)) (pyStrip (pySlice l2 35 58))
              :: extrair (l3 :: rest3)
      else if isB l2 then
        mergeSegB (mkBase linha "" "") l2 :: extrair rest2
      else
        mkBase linha "" "" :: extrair (l2 :: rest2)
    else
      extrair (l2 :: rest2)

/-- Python `int(s)` as `teste_temp.py` line 17 applies it: succeeds on a
(whitespace-surrounded) non-empty digit string, raises `ValueError`
(`none`) otherwise; the raised error aborts the whole run, uncaught. -/
def pyIntOpt (s : String) : Option Nat :=
  let t := trimL s.data
  if ¬t.isEmpty ∧ (∀ c ∈ t, c.isDigit) then some (valChars t) else none

/-- The J-52 continuation test of `teste_temp.py` line 23: `"3"` at
`[7:8]` and `"J0"` at `[13:15]`. -/
def isContTemp (l : String) : Bool :=
  pySlice l 7 8 == "3" && pySlice l 13 15 == "J0"

/-- The date reformat of `teste_temp.py` line 40:
`DD/MM/YYYY` resliced from an 8-digit field, or the raw field if short. -/
def pyDateFmtTemp (d : String) : String :=
  if 8 ≤ d.length then pySlice d 6 8 ++ "/" ++ pySlice d 4 6 ++ "/" ++ pySlice d 0 4
  else d

/-- The payment dictionary of `teste_temp.py` lines 33-43. -/
structure PagamentoTemp where
  favorecido_nome : String
  favorecido_cpf_cnpj : String
  banco : String
  agencia : String
  conta : String
  valor : ℚ
  data_pagamento : String
  remetente_cnpj : String
  remetente_nome : String
  deriving DecidableEq

/-- One record of `teste_temp.py` lines 11-43. -/
def mkTemp (linha : String) (cents : Nat) (remetente_cnpj remetente_nome : String) :
    PagamentoTemp :=
  { favorecido_nome := pyStrip (pySlice linha 58 88)
    favorecido_cpf_cnpj := pyStrip (pySlice linha 44 58)
    banco := pyStrip (pySlice linha 16 19)
    agencia := pyStrip (pySlice linha 19 24)
    conta := pyStrip (pySlice linha 24 36)
    valor := (cents : ℚ) / 100
    data_pagamento := pyDateFmtTemp (pySlice linha 93 101)
    remetente_cnpj := remetente_cnpj
    remetente_nome := remetente_nome }

/-- The legacy loop of `teste_temp.py` lines 6-47: after any segment-J
line it advances the cursor by a fixed two lines (`i += 2`), whether or
not the looked-at next line was a `J0` continuation; `none` models the
uncaught `ValueError` of `int` on a non-digit amount slice. -/
def extrairTemp : List String → Option (List PagamentoTemp)
  | [] => some []
  | linha :: rest =>
    if isJ linha then
      match pyIntOpt (pySlice linha 119 134) with
      | none => none
      | some cents =>
        match rest with
        | [] => some [mkTemp linha cents "" ""]
        | l2 :: rest2 =>
          let r :=
            if isContTemp l2 then
              mkTemp linha cents (pyStrip (pySlice l2 44 58)) (pyStrip (pySlice l2 58 88))
            else
              mkTemp linha cents "" ""
          (extrairTemp rest2).map (r :: ·)
    else
      extrairTemp rest

/-- Substring test, Python's `pat in s` on character lists. -/
def hasSub (pat : List Char) : List Char → Bool
  | [] => pat.isEmpty
  | c :: cs => decide ((c :: cs).take pat.length = pat) || hasSub pat cs

/-- The segment-J selection of `analise_detalhada.py` lines 11-14:
`'J000' in linha.strip()` — a substring search over the whole line. -/
def isJDetalhada (l : String) : Bool :=
  hasSub "J000".data (trimL l.data)

/-- Modelled from the spec: §7 `TruncatedChain` — the `DecodeWarning`
taxonomy is not present in `src/`; per the spec the warning is due when
the assembler is still in `AwaitingContinuation` at end of input, i.e.
when the last input line is a usable primary detail line. -/
def truncatedChainWarning (linhas : List String) : Bool :=
  match linhas.getLast? with
  | some l => isJok l
  | none => false

/-- Date-layout convention flag of spec §4.4 (per-schema, since the
scripts use both orderings). -/
inductive DateConvention
  | ymd
  | dmy
  deriving DecidableEq

/-- Calendar date of spec §3. -/
structure CalendarDate where
  year : Nat
  month : Nat
  day : Nat
  deriving DecidableEq

/-- Result of date decoding: a parsed date or the raw field, per spec §3
(`CalendarDate` or `Unparsed(rawDigits)`). -/
inductive DateResult
  | parsed (d : CalendarDate)
  | unparsed (raw : String)
  deriving DecidableEq

/-- Gregorian leap-year rule. -/
def isLeap (y : Nat) : Bool :=
  y % 4 = 0 && (y % 100 ≠ 0 || y % 400 = 0)

/-- Days in a month of the Gregorian calendar. -/
def daysInMonth (y m : Nat) : Nat :=
  if m = 2 then (if isLeap y then 29 else 28)
  else if m = 4 ∨ m = 6 ∨ m = 9 ∨ m = 11 then 30
  else 31

/-- Validity of a `(year, month, day)` triple as a calendar date. -/
def isValidDate (y m d : Nat) : Bool :=
  1 ≤ m && m ≤ 12 && 1 ≤ d && d ≤ daysInMonth y m

/-- Year, month and day components of an 8-digit field under a layout
convention. -/
def dateComponents (conv : DateConvention) (cs : List Char) : Nat × Nat × Nat :=
  match conv with
  | .ymd => (valChars (cs.take 4), valChars ((cs.drop 4).take 2), valChars (cs.drop 6))
  | .dmy => (valChars (cs.drop 4), valChars ((cs.drop 2).take 2), valChars (cs.take 2))

/-- Modelled from the spec: §4.4 `decodeDate` — no script in `src/`
validates dates (`teste_temp.py` line 40 only reslices the digits), so the
decoder is taken from the spec's words: expect 8 digits, read the
components under the declared convention, and yield `Unparsed(raw)` when
the field is not a valid calendar date. -/
def decodeDate (conv : DateConvention) (raw : String) : DateResult :=
  if raw.data.length = 8 ∧ (∀ c ∈ raw.data, c.isDigit) then
    if isValidDate (dateComponents conv raw.data).1 (dateComponents conv raw.data).2.1
        (dateComponents conv raw.data).2.2 then
      .parsed ⟨(dateComponents conv raw.data).1, (dateComponents conv raw.data).2.1,
        (dateComponents conv raw.data).2.2⟩
    else .unparsed raw
  else .unparsed raw

/-- Left-zero-padded decimal rendering of `n` on exactly `k` digit
characters (the fixed-width re-encoding of a date component). -/
def padChars : Nat → Nat → List Char
  | 0, _ => []
  | k + 1, n => padChars k (n / 10) ++ [Char.ofNat (48 + n % 10)]

/-- Modelled from the spec: §6/§8 — re-encoding of a `CalendarDate` to the
fixed 8-digit field under a layout convention. -/
def encodeDate (conv : DateConvention) (cd : CalendarDate) : String :=
  match conv with
  | .ymd => String.mk (padChars 4 cd.year ++ padChars 2 cd.month ++ padChars 2 cd.day)
  | .dmy => String.mk (padChars 2 cd.day ++ padChars 2 cd.month ++ padChars 4 cd.year)

/-- Specification-side reading of the email rule (§4.5 transition 3): the
first whitespace-separated token of the free text that contains both `'@'`
and `'.'` and is longer than 5 characters; empty when no token qualifies.
Used as the comparison point for `extractEmail`. -/
def emailFirstToken (resto : List Char) : String :=
  match (splitWs resto).find? emailTok with
  | some t => String.mk t
  | none => ""

/-- Sample 240-character segment-J line: marker `'3'` at offset 7 and
`'J'` at offset 13. -/
def lineJ1 : String :=
  String.mk (List.replicate 7 '0' ++ '3' :: List.replicate 5 '0' ++ 'J' :: List.replicate 226 'A')

/-- Second sample 240-character segment-J line (a payer-identity
continuation in a chain). -/
def lineJ2 : String :=
  String.mk (List.replicate 7 '0' ++ '3' :: List.replicate 5 '0' ++ 'J' :: List.replicate 226 'P')

/-- Sample 240-character segment-B line whose trailing free text embeds
`lucas@example.com` among decoy tokens. -/
def lineB1 : String :=
  String.mk (List.replicate 7 '0' ++ '3' :: List.replicate 5 '0' ++ 'B' ::
    (List.replicate 113 'Z' ++ " PAGTO a@b.c lucas@example.com x@y.z.w".data
      ++ List.replicate 75 ' '))

/-- Sample 240-character segment-J line carrying the digits `7…7` in the
`[119:134]` amount slice that `teste_temp.py` converts with `int`. -/
def lineJt : String :=
  String.mk (List.replicate 7 '0' ++ '3' :: List.replicate 5 '0' ++ 'J' ::
    (List.replicate 105 'A' ++ List.replicate 15 '7' ++ List.replicate 106 'A'))

/-- Sample 240-character line that is neither segment J nor segment B
(marker `'0'` at offset 7), e.g. a header or trailer line. -/
def lineH : String :=
  String.mk (List.replicate 240 '0')

/-- Sample segment-J line of length 180 (shorter than the 240 the field
table needs). -/
def line180 : String :=
  String.mk (List.replicate 7 '0' ++ '3' :: List.replicate 5 '0' ++ 'J' :: List.replicate 166 'A')

/-- Sample segment-J line of length 100: too short to contain the
`[119:134]` amount slice of `teste_temp.py`. -/
def line100 : String :=
  String.mk (List.replicate 7 '0' ++ '3' :: List.replicate 5 '0' ++ 'J' :: List.replicate 86 'A')

/-- Sample line of 20 characters that contains `"J000"` as a substring but
not at the marker offsets. -/
def lineSub1 : String :=
  String.mk ("J000".data ++ List.replicate 16 'A')

/-- Sample line of 20 characters agreeing with `lineSub1` at both marker
offsets but containing no `"J000"`. -/
def lineSub2 : String :=
  String.mk (List.replicate 20 'A')

theorem head?_eq_some_mem {l : List Char} {c : Char} (h : l.head? = some c) : c ∈ l := by
  cases l <;> simp_all

theorem head?_dropWhile_false (p : Char → Bool) (l : List Char) :
    ∀ c, (l.dropWhile p).head? = some c → p c = false := by
  induction l with
  | nil => intro c hc; simp at hc
  | cons a l ih =>
    intro c hc
    by_cases h : p a
    · rw [List.dropWhile_cons, if_pos h] at hc
      exact ih c hc
    · rw [List.dropWhile_cons, if_neg h] at hc
      simp at hc
      subst hc
      simpa using h

theorem dropWhile_eq_self_of_head (p : Char → Bool) (l : List Char)
    (h : ∀ c, l.head? = some c → p c = false) : l.dropWhile p = l := by
  cases l with
  | nil => rfl
  | cons a l => rw [List.dropWhile_cons, if_neg (by simp [h a rfl])]

theorem trimL_idem (cs : List Char) : trimL (trimL cs) = trimL cs := by
  unfold trimL
  obtain ⟨t, ht⟩ :=
    List.dropWhile_suffix (l := (cs.dropWhile Char.isWhitespace).reverse) Char.isWhitespace
  have hA : cs.dropWhile Char.isWhitespace =
      ((cs.dropWhile Char.isWhitespace).reverse.dropWhile Char.isWhitespace).reverse
        ++ t.reverse := by
    have h2 := congrArg List.reverse ht
    simpa using h2.symm
  have h1 : ((cs.dropWhile Char.isWhitespace).reverse.dropWhile
      Char.isWhitespace).reverse.dropWhile Char.isWhitespace =
      ((cs.dropWhile Char.isWhitespace).reverse.dropWhile Char.isWhitespace).reverse := by
    apply dropWhile_eq_self_of_head
    intro c hc
    apply head?_dropWhile_false Char.isWhitespace cs
    rw [hA]
    cases hBr : ((cs.dropWhile Char.isWhitespace).reverse.dropWhile
        Char.isWhitespace).reverse with
    | nil => rw [hBr] at hc; simp at hc
    | cons x xs =>
      rw [hBr] at hc
      simp at hc
      simp [hc]
  rw [h1, List.reverse_reverse, List.dropWhile_idempotent]

theorem trimL_eq_self (t : List Char) (h : ∀ c ∈ t, c.isWhitespace = false) :
    trimL t = t := by
  unfold trimL
  rw [dropWhile_eq_self_of_head _ _ (fun c hc => h c (head?_eq_some_mem hc)),
    dropWhile_eq_self_of_head _ _
      (fun c hc => h c (List.mem_reverse.mp (head?_eq_some_mem hc))),
    List.reverse_reverse]

theorem pyStrip_idem (s : String) : pyStrip (pyStrip s) = pyStrip s := by
  unfold pyStrip
  rw [show (String.mk (trimL s.data)).data = trimL s.data from rfl, trimL_idem]

theorem splitWsAux_chars (cs : List Char) : ∀ (acc : List Char),
    (∀ c ∈ acc, c.isWhitespace = false) →
    ∀ t ∈ splitWsAux acc cs, ∀ c ∈ t, c.isWhitespace = false ∧ (c ∈ cs ∨ c ∈ acc) := by
  induction cs with
  | nil =>
    intro acc hacc t ht c hc
    unfold splitWsAux at ht
    by_cases he : acc.isEmpty
    · simp [he] at ht
    · simp [he] at ht
      subst ht
      have hm : c ∈ acc := List.mem_reverse.mp hc
      exact ⟨hacc c hm, Or.inr hm⟩
  | cons a cs ih =>
    intro acc hacc t ht c hc
    unfold splitWsAux at ht
    by_cases hw : a.isWhitespace
    · rw [if_pos hw] at ht
      by_cases he : acc.isEmpty
      · rw [if_pos he] at ht
        have := ih [] (by simp) t ht c hc
        have hcs : c ∈ cs := by simpa using this.2
        exact ⟨this.1, Or.inl (List.mem_cons_of_mem _ hcs)⟩
      · rw [if_neg he] at ht
        rcases List.mem_cons.mp ht with h | h
        · subst h
          have hm : c ∈ acc := List.mem_reverse.mp hc
          exact ⟨hacc c hm, Or.inr hm⟩
        · have := ih [] (by simp) t h c hc
          have hcs : c ∈ cs := by simpa using this.2
          exact ⟨this.1, Or.inl (List.mem_cons_of_mem _ hcs)⟩
    · rw [if_neg hw] at ht
      have hacc2 : ∀ c ∈ a :: acc, c.isWhitespace = false := by
        intro x hx
        rcases List.mem_cons.mp hx with h | h
        · subst h; simpa using hw
        · exact hacc x h
      have := ih (a :: acc) hacc2 t ht c hc
      refine ⟨this.1, ?_⟩
      rcases this.2 with h | h
      · exact Or.inl (List.mem_cons_of_mem _ h)
      · rcases List.mem_cons.mp h with h2 | h2
        · exact Or.inl (h2 ▸ List.mem_cons_self _ _)
        · exact Or.inr h2

theorem splitWs_token_chars {cs t : List Char} (ht : t ∈ splitWs cs) :
    ∀ c ∈ t, c.isWhitespace = false ∧ c ∈ cs := by
  intro c hc
  have := splitWsAux_chars cs [] (by simp) t ht c hc
  refine ⟨this.1, ?_⟩
  rcases this.2 with h | h
  · exact h
  · simp at h

theorem digit_toNat_bounds {c : Char} (h : c.isDigit = true) :
    48 ≤ c.toNat ∧ c.toNat ≤ 57 := by
  simp [Char.isDigit] at h
  exact ⟨h.1, h.2⟩

theorem padChars_valChars : ∀ (cs : List Char), (∀ c ∈ cs, c.isDigit = true) →
    padChars cs.length (valChars cs) = cs := by
  intro cs
  induction cs using List.reverseRecOn with
  | nil => intro _; rfl
  | append_singleton cs c ih =>
    intro h
    have hd : c.isDigit = true := h c (by simp)
    have hb := digit_toNat_bounds hd
    have hlen : (cs ++ [c]).length = cs.length + 1 := by simp
    rw [hlen, valChars_append]
    show padChars cs.length ((10 * valChars cs + (c.toNat - 48)) / 10)
        ++ [Char.ofNat (48 + (10 * valChars cs + (c.toNat - 48)) % 10)] = cs ++ [c]
    have h1 : (10 * valChars cs + (c.toNat - 48)) / 10 = valChars cs := by omega
    have h2 : (10 * valChars cs + (c.toNat - 48)) % 10 = c.toNat - 48 := by omega
    have h3 : 48 + (c.toNat - 48) = c.toNat := by omega
    rw [h1, h2, h3, Char.ofNat_toNat, ih (fun x hx => h x (List.mem_append_left _ hx))]

/-- Claim C2: amount decoding keeps only the digit characters of the raw
currency field; with no digits left it yields 0 cents and the
(spec-modelled) decode warning is recorded; otherwise the digit string is
read as a decimal integer count of minor units (two implied decimals); in
particular `"0000000000314879550"` decodes to 314879550 cents, i.e. the
value 3148795.50. -/
theorem claim_C2_decode_amount :
    (∀ raw, pyFilterDigits raw = "" →
      decodeAmountCents raw = 0 ∧ amountDecodeWarning raw = true)
    ∧ (∀ raw, pyFilterDigits raw ≠ "" →
      decodeAmountCents raw =
        Nat.ofDigits 10 (((raw.data.filter Char.isDigit).map (fun c => c.toNat - 48)).reverse)
      ∧ amountDecodeWarning raw = false)
    ∧ decodeAmountCents "0000000000314879550" = 314879550
    ∧ (decodeAmountCents "0000000000314879550" : ℚ) / 100 = 3148795.5 := by
  refine ⟨?_, ?_, by decide, ?_⟩
  · intro raw h
    exact ⟨by simp [decodeAmountCents, h], by simp [amountDecodeWarning, h]⟩
  · intro raw h
    constructor
    · have h1 : decodeAmountCents raw = pyIntDigits (pyFilterDigits raw) := by
        simp [decodeAmountCents, h]
      rw [h1]
      show valChars (raw.data.filter Char.isDigit) = _
      exact valChars_eq_ofDigits _
    · simp [amountDecodeWarning, h]
  · have h : decodeAmountCents "0000000000314879550" = 314879550 := by decide
    rw [h]
    norm_num

/-- Witness for C2: a raw field with no digit at all decodes to 0, and a
raw field with stray non-digits decodes to the value of its digits. -/
theorem claim_C2_witness :
    (pyFilterDigits "R$ ,." = "" ∧ decodeAmountCents "R$ ,." = 0)
    ∧ (pyFilterDigits "0h42" ≠ "" ∧ decodeAmountCents "0h42" =
        Nat.ofDigits 10 ((("0h42".data.filter Char.isDigit).map (fun c => c.toNat - 48)).reverse)) :=
  ⟨⟨by decide, (claim_C2_decode_amount.1 "R$ ,." (by decide)).1⟩,
   ⟨by decide, (claim_C2_decode_amount.2.1 "0h42" (by decide)).1⟩⟩

/-- Claim C8: the email field is exactly the first whitespace-separated
token of the trailing free text that contains `'@'` and `'.'` and has
length greater than 5 (the guard `"@" in resto` and the final `strip` of
the found token change nothing); the segment-B merge always produces a
record whose email field is that heuristic's result (empty when no token
qualifies); on the sample free text the token `lucas@example.com` is
chosen and no decoy token is mistaken for it. -/
theorem claim_C8_email_heuristic :
    (∀ resto, extractEmail resto = emailFirstToken resto)
    ∧ (∀ (p : Pagamento) (prox : String),
        (mergeSegB p prox).email = extractEmail (trimL (pySliceFrom prox 127).data))
    ∧ extractEmail " PAGTO a@b.c lucas@example.com x@y.z.w".data = "lucas@example.com"
    ∧ ∀ p : Pagamento, (mergeSegB p lineB1).email = "lucas@example.com" := by
  refine ⟨?_, fun p prox => rfl, by decide, fun p => by rfl⟩
  intro resto
  unfold extractEmail emailFirstToken
  by_cases h : resto.contains '@'
  · rw [if_pos h]
    cases hf : (splitWs resto).find? emailTok with
    | none => rfl
    | some t =>
      have hmem := List.mem_of_find?_eq_some hf
      have hn : ∀ c ∈ t, c.isWhitespace = false :=
        fun c hc => (splitWs_token_chars hmem c hc).1
      show String.mk (trimL t) = String.mk t
      rw [trimL_eq_self t hn]
  · rw [if_neg h]
    cases hf : (splitWs resto).find? emailTok with
    | none => rfl
    | some t =>
      exfalso
      have hp := List.find?_some hf
      simp [emailTok] at hp
      have hat : ('@' : Char) ∈ t := hp.1.1
      have hmem := List.mem_of_find?_eq_some hf
      have hin : ('@' : Char) ∈ resto := (splitWs_token_chars hmem '@' hat).2
      exact h (List.elem_iff.mpr hin)

/-- Claim C9: for every raw field that decodes to a valid calendar date
under a declared convention, re-encoding the decoded date under the same
convention yields exactly the original eight digits. -/
theorem claim_C9_date_roundtrip :
    ∀ (conv : DateConvention) (raw : String) (cd : CalendarDate),
      decodeDate conv raw = .parsed cd → encodeDate conv cd = raw := by
  intro conv raw cd h
  unfold decodeDate at h
  by_cases hg : raw.data.length = 8 ∧ (∀ c ∈ raw.data, c.isDigit)
  case neg =>
    rw [if_neg hg] at h
    exact absurd h (by simp)
  case pos =>
    rw [if_pos hg] at h
    obtain ⟨hlen, hdig⟩ := hg
    split at h
    case isFalse => exact absurd h (by simp)
    case isTrue hv =>
      have hcd : cd = ⟨(dateComponents conv raw.data).1,
          (dateComponents conv raw.data).2.1, (dateComponents conv raw.data).2.2⟩ := by
        cases h; rfl
      subst hcd
      have e1 := padChars_valChars (raw.data.take 4)
        (fun c hc => hdig c (List.mem_of_mem_take hc))
      rw [show (raw.data.take 4).length = 4 from by rw [List.length_take]; omega] at e1
      have e2 := padChars_valChars ((raw.data.drop 4).take 2)
        (fun c hc => hdig c (List.mem_of_mem_drop (List.mem_of_mem_take hc)))
      rw [show ((raw.data.drop 4).take 2).length = 2 from by
        rw [List.length_take, List.length_drop]; omega] at e2
      have e3 := padChars_valChars (raw.data.drop 6)
        (fun c hc => hdig c (List.mem_of_mem_drop hc))
      rw [show (raw.data.drop 6).length = 2 from by rw [List.length_drop]; omega] at e3
      have e4 := padChars_valChars (raw.data.take 2)
        (fun c hc => hdig c (List.mem_of_mem_take hc))
      rw [show (raw.data.take 2).length = 2 from by rw [List.length_take]; omega] at e4
      have e5 := padChars_valChars ((raw.data.drop 2).take 2)
        (fun c hc => hdig c (List.mem_of_mem_drop (List.mem_of_mem_take hc)))
      rw [show ((raw.data.drop 2).take 2).length = 2 from by
        rw [List.length_take, List.length_drop]; omega] at e5
      have e6 := padChars_valChars (raw.data.drop 4)
        (fun c hc => hdig c (List.mem_of_mem_drop hc))
      rw [show (raw.data.drop 4).length = 4 from by rw [List.length_drop]; omega] at e6
      cases conv with
      | ymd =>
        show String.mk (padChars 4 (valChars (raw.data.take 4))
          ++ padChars 2 (valChars ((raw.data.drop 4).take 2))
          ++ padChars 2 (valChars (raw.data.drop 6))) = raw
        rw [e1, e2, e3]
        have hsplit : raw.data.take 4 ++ ((raw.data.drop 4).take 2 ++ raw.data.drop 6)
            = raw.data := by
          rw [show raw.data.drop 6 = (raw.data.drop 4).drop 2 from by rw [List.drop_drop],
            List.take_append_drop, List.take_append_drop]
        rw [← List.append_assoc] at hsplit
        rw [hsplit]
      | dmy =>
        show String.mk (padChars 2 (valChars (raw.data.take 2))
          ++ padChars 2 (valChars ((raw.data.drop 2).take 2))
          ++ padChars 4 (valChars (raw.data.drop 4))) = raw
        rw [e4, e5, e6]
        have hsplit : raw.data.take 2 ++ ((raw.data.drop 2).take 2 ++ raw.data.drop 4)
            = raw.data := by
          rw [show raw.data.drop 4 = (raw.data.drop 2).drop 2 from by rw [List.drop_drop],
            List.take_append_drop, List.take_append_drop]
        rw [← List.append_assoc] at hsplit
        rw [hsplit]

/-- Witness for C9: the 8-digit field `"20240315"` under the `YYYYMMDD`
convention decodes to 2024-03-15 and re-encodes to the same digits. -/
theorem claim_C9_witness :
    decodeDate .ymd "20240315" = .parsed ⟨2024, 3, 15⟩
    ∧ encodeDate .ymd ⟨2024, 3, 15⟩ = "20240315" :=
  ⟨by decide, claim_C9_date_roundtrip .ymd "20240315" ⟨2024, 3, 15⟩ (by decide)⟩

/-- Claim C1: when the assembler of `teste.py` holds an in-progress record
(a primary segment-J line was consumed) and the next line is not a
continuation, the record is emitted unchanged and that next line is not
consumed — the run continues exactly at it; this holds after the primary
line (first conjunct), after a payer continuation (second conjunct) and at
end of input (third conjunct); by contrast, the legacy loop of
`teste_temp.py` skips a fixed two lines, consuming the looked-at line even
when it is not a `J0` continuation (fourth conjunct). -/
theorem claim_C1_conditional_consumption :
    (∀ linha l2 rest2, isJok linha = true → isJ l2 = false → isB l2 = false →
      extrair (linha :: l2 :: rest2) = mkBase linha "" "" :: extrair (l2 :: rest2))
    ∧ (∀ linha l2 l3 rest3, isJok linha = true → isJ l2 = true → isB l3 = false →
      extrair (linha :: l2 :: l3 :: rest3) =
        mkBase linha (pyStrip (pySlice l2 21 35)) (pyStrip (pySlice l2 35 58))
          :: extrair (l3 :: rest3))
    ∧ (∀ linha, isJok linha = true → extrair [linha] = [mkBase linha "" ""])
    ∧ (∀ linha l2 rest2 cents, isJ linha = true → isContTemp l2 = false →
      pyIntOpt (pySlice linha 119 134) = some cents →
      extrairTemp (linha :: l2 :: rest2) =
        (extrairTemp rest2).map (mkTemp linha cents "" "" :: ·)) := by
  refine ⟨?_, ?_, ?_, ?_⟩
  · intro linha l2 rest2 h1 h2 h3
    cases rest2 <;> simp [extrair, h1, h2, h3]
  · intro linha l2 l3 rest3 h1 h2 h3
    simp [extrair, h1, h2, h3]
  · intro linha h1
    simp [extrair, h1]
  · intro linha l2 rest2 cents h1 h2 h3
    simp [extrairTemp, h1, h2, h3]

/-- Witness for C1: concrete runs on sample lines for all four conjuncts. -/
theorem claim_C1_witness :
    (isJok lineJ1 = true ∧ isJ lineH = false ∧ isB lineH = false
      ∧ extrair [lineJ1, lineH] = mkBase lineJ1 "" "" :: extrair [lineH])
    ∧ (extrair [lineJ1, lineJ2, lineH] =
        mkBase lineJ1 (pyStrip (pySlice lineJ2 21 35)) (pyStrip (pySlice lineJ2 35 58))
          :: extrair [lineH])
    ∧ extrair [lineJ1] = [mkBase lineJ1 "" ""]
    ∧ extrairTemp [lineJt, lineH] =
        (extrairTemp []).map (mkTemp lineJt 777777777777777 "" "" :: ·) :=
  ⟨⟨by decide, by decide, by decide,
      claim_C1_conditional_consumption.1 lineJ1 lineH [] (by decide) (by decide) (by decide)⟩,
   claim_C1_conditional_consumption.2.1 lineJ1 lineJ2 lineH [] (by decide) (by decide) (by decide),
   claim_C1_conditional_consumption.2.2.1 lineJ1 (by decide),
   claim_C1_conditional_consumption.2.2.2 lineJt lineH [] 777777777777777
     (by decide) (by decide) (by decide)⟩

/-- Claim C3: an input consisting of a usable primary segment-J line
immediately followed by a second segment-J (payer-identity) line decodes
to exactly one record, whose payer fields are the stripped `[21:35]`
(CPF/CNPJ) and `[35:58]` (name) slices of the second line; both lines are
consumed. -/
theorem claim_C3_payer_chain :
    ∀ l1 l2, isJok l1 = true → isJ l2 = true →
      extrair [l1, l2] =
        [mkBase l1 (pyStrip (pySlice l2 21 35)) (pyStrip (pySlice l2 35 58))]
      ∧ ∀ r ∈ extrair [l1, l2],
          r.cnpj_pagador = pyStrip (pySlice l2 21 35)
          ∧ r.pagador_nome = pyStrip (pySlice l2 35 58) := by
  intro l1 l2 h1 h2
  have he : extrair [l1, l2] =
      [mkBase l1 (pyStrip (pySlice l2 21 35)) (pyStrip (pySlice l2 35 58))] := by
    simp [extrair, h1, h2]
  refine ⟨he, ?_⟩
  intro r hr
  rw [he] at hr
  simp at hr
  subst hr
  refine ⟨rfl, ?_⟩
  show pyStrip (pyStrip (pySlice l2 35 58)) = pyStrip (pySlice l2 35 58)
  exact pyStrip_idem _

/-- Witness for C3: the two sample segment-J lines decode to one record
with payer fields from the second line. -/
theorem claim_C3_witness :
    extrair [lineJ1, lineJ2] =
      [mkBase lineJ1 (pyStrip (pySlice lineJ2 21 35)) (pyStrip (pySlice lineJ2 35 58))] :=
  (claim_C3_payer_chain lineJ1 lineJ2 (by decide) (by decide)).1

/-- Counterexample for C4: a segment-J line of length 180 is dropped
entirely by `teste.py` — no record is emitted for it, no field of it
decodes, and nothing is tagged; and a segment-J line of length 100 makes
`teste_temp.py` abort the whole decode (uncaught `ValueError` of `int` on
the empty `[119:134]` slice), contradicting both the warning-tagged record
and the non-aborting continuation the claim describes. -/
theorem claim_C4_counterexample :
    isJ line180 = true ∧ line180.length = 180 ∧ extrair [line180] = []
    ∧ isJ line100 = true ∧ line100.length = 100 ∧ extrairTemp [line100] = none :=
  ⟨by decide, by decide, by rfl, by decide, by decide, by rfl⟩

/-- Claim C4 (amended): in `teste.py` a segment-J line shorter than 240
characters produces no record and decodes no field — the line is skipped
and the file decode continues with the remaining lines; in `teste_temp.py`
a segment-J line whose `[119:134]` slice is not a digit string aborts the
whole decode. -/
theorem claim_C4_short_line :
    (∀ l rest, isJ l = true → l.length < 240 → extrair (l :: rest) = extrair rest)
    ∧ (∀ l rest, isJ l = true → pyIntOpt (pySlice l 119 134) = none →
        extrairTemp (l :: rest) = none) := by
  constructor
  · intro l rest h1 h2
    have hok : isJok l = false := by
      simp [isJok, h1]
      omega
    cases rest with
    | nil => simp [extrair, hok]
    | cons y t => cases t <;> simp [extrair, hok]
  · intro l rest h1 h2
    cases rest <;> simp [extrairTemp, h1, h2]

/-- Witness for C4 (amended): the length-180 sample line is skipped with
the decode continuing, and the length-100 sample line aborts the legacy
decoder. -/
theorem claim_C4_witness :
    (isJ line180 = true ∧ line180.length < 240
      ∧ extrair [line180, lineJ1] = extrair [lineJ1])
    ∧ (isJ line100 = true ∧ pyIntOpt (pySlice line100 119 134) = none
      ∧ extrairTemp [line100, lineJ1] = none) :=
  ⟨⟨by decide, by decide, claim_C4_short_line.1 line180 [lineJ1] (by decide) (by decide)⟩,
   ⟨by decide, by rfl, claim_C4_short_line.2 line100 [lineJ1] (by decide) (by rfl)⟩⟩

/-- Counterexample for C5: the segment-J selection of
`analise_detalhada.py` is not determined by the two marker offsets —
`lineSub1` and `lineSub2` agree at both marker offsets, yet the substring
search `'J000' in line` accepts the first and rejects the second, so that
classification inspects bytes outside the markers. -/
theorem claim_C5_counterexample :
    pySlice lineSub1 7 8 = pySlice lineSub2 7 8
    ∧ pySlice lineSub1 13 14 = pySlice lineSub2 13 14
    ∧ isJDetalhada lineSub1 = true ∧ isJDetalhada lineSub2 = false :=
  ⟨by decide, by decide, by decide, by decide⟩

/-- Claim C5 (amended): the extraction pipeline's classification
(`teste.py`) depends only on the two fixed marker offsets `[7:8]` and
`[13:14]` — lines agreeing there classify identically; any line whose
markers match no known combination classifies as `Unknown`, which is not
an error: the assembler skips such a line and continues; the diagnostic
script `analise_detalhada.py`, by contrast, selects segment-J lines by a
substring search. -/
theorem claim_C5_markers_only :
    (∀ l1 l2, pySlice l1 7 8 = pySlice l2 7 8 → pySlice l1 13 14 = pySlice l2 13 14 →
      classify l1 = classify l2)
    ∧ (∀ l, ¬(pySlice l 7 8 = "3" ∧ (pySlice l 13 14 = "J" ∨ pySlice l 13 14 = "B")) →
      classify l = .unknown)
    ∧ (∀ l rest, classify l = .unknown → extrair (l :: rest) = extrair rest) := by
  refine ⟨?_, ?_, ?_⟩
  · intro l1 l2 h1 h2
    simp [classify, isJ, isB, h1, h2]
  · intro l h
    push_neg at h
    by_cases h3 : pySlice l 7 8 = "3"
    · obtain ⟨hJ, hB⟩ := h h3
      simp [classify, isJ, isB, h3, hJ, hB]
    · simp [classify, isJ, isB, h3]
  · intro l rest h
    by_cases h1 : isJ l = true
    · simp [classify, h1] at h
    · have h1f : isJ l = false := by simpa using h1
      have hok : isJok l = false := by simp [isJok, h1f]
      cases rest with
      | nil => simp [extrair, hok]
      | cons y t => cases t <;> simp [extrair, hok]

/-- Witness for C5 (amended): the two sample segment-J lines classify
identically, the all-zero header-like line classifies `Unknown`, and the
assembler skips it. -/
theorem claim_C5_witness :
    classify lineJ1 = classify lineJ2
    ∧ classify lineH = .unknown
    ∧ extrair [lineH, lineJ1] = extrair [lineJ1] :=
  ⟨claim_C5_markers_only.1 lineJ1 lineJ2 (by decide) (by decide),
   claim_C5_markers_only.2.1 lineH (by decide),
   claim_C5_markers_only.2.2 lineH [lineJ1] (claim_C5_markers_only.2.1 lineH (by decide))⟩

/-- Claim C6: when a usable primary segment-J line is the last line of
input (preceded by any run of non-J lines), the partial in-progress record
is still emitted rather than dropped — the run ends with that one record
and nothing pending — and the spec-modelled `TruncatedChain` warning is
due for that input. -/
theorem claim_C6_truncated_chain :
    ∀ (pre : List String) (l : String), (∀ x ∈ pre, isJ x = false) → isJok l = true →
      extrair (pre ++ [l]) = [mkBase l "" ""]
      ∧ truncatedChainWarning (pre ++ [l]) = true := by
  intro pre l hpre hok
  constructor
  · induction pre with
    | nil => simp [extrair, hok]
    | cons x pre ih =>
      have hx : isJ x = false := hpre x (List.mem_cons_self _ _)
      have hxok : isJok x = false := by simp [isJok, hx]
      have ih2 := ih (fun y hy => hpre y (List.mem_cons_of_mem _ hy))
      cases hp : pre ++ [l] with
      | nil => exact absurd hp (by simp)
      | cons y t =>
        rw [List.cons_append, hp]
        have hskip : extrair (x :: y :: t) = extrair (y :: t) := by
          cases t <;> simp [extrair, hxok]
        rw [hskip, ← hp, ih2]
  · unfold truncatedChainWarning
    rw [List.getLast?_concat]
    exact hok

/-- Witness for C6: a header-like line followed by a final primary
segment-J line yields that one record plus the truncation warning. -/
theorem claim_C6_witness :
    extrair [lineH, lineJ1] = [mkBase lineJ1 "" ""]
    ∧ truncatedChainWarning [lineH, lineJ1] = true :=
  claim_C6_truncated_chain [lineH] lineJ1 (by decide) (by decide)

/-- Claim C10: merging a segment-B line updates only the ten complementary
keys; every other key of the record keeps exactly its previous value, and
the ten updated keys depend only on the segment-B line, not on the
in-progress record. -/
theorem claim_C10_segB_frame :
    ∀ (p : Pagamento) (prox : String),
      (mergeSegB p prox).favorecido_nome = p.favorecido_nome
      ∧ (mergeSegB p prox).pagador_nome = p.pagador_nome
      ∧ (mergeSegB p prox).cnpj_pagador = p.cnpj_pagador
      ∧ (mergeSegB p prox).banco_favorecido = p.banco_favorecido
      ∧ (mergeSegB p prox).valor = p.valor
      ∧ (mergeSegB p prox).data_pagamento = p.data_pagamento
      ∧ (mergeSegB p prox).documento = p.documento
      ∧ (mergeSegB p prox).codigo_banco = p.codigo_banco
      ∧ (mergeSegB p prox).codigo_lote = p.codigo_lote
      ∧ (mergeSegB p prox).tipo_registro = p.tipo_registro
      ∧ (mergeSegB p prox).numero_registro = p.numero_registro
      ∧ (mergeSegB p prox).segmento = p.segmento
      ∧ (mergeSegB p prox).codigo_movimento = p.codigo_movimento
      ∧ (mergeSegB p prox).codigo_camara = p.codigo_camara
      ∧ (mergeSegB p prox).informacoes = p.informacoes
      ∧ (mergeSegB p prox).descontos = p.descontos
      ∧ (mergeSegB p prox).acrescimos = p.acrescimos
      ∧ (mergeSegB p prox).codigo_barras = p.codigo_barras
      ∧ ∀ q : Pagamento,
          (mergeSegB p prox).cnpj_favorecido = (mergeSegB q prox).cnpj_favorecido
          ∧ (mergeSegB p prox).endereco_completo = (mergeSegB q prox).endereco_completo
          ∧ (mergeSegB p prox).logradouro = (mergeSegB q prox).logradouro
          ∧ (mergeSegB p prox).numero_endereco = (mergeSegB q prox).numero_endereco
          ∧ (mergeSegB p prox).complemento = (mergeSegB q prox).complemento
          ∧ (mergeSegB p prox).bairro = (mergeSegB q prox).bairro
          ∧ (mergeSegB p prox).cidade = (mergeSegB q prox).cidade
          ∧ (mergeSegB p prox).cep = (mergeSegB q prox).cep
          ∧ (mergeSegB p prox).uf = (mergeSegB q prox).uf
          ∧ (mergeSegB p prox).email = (mergeSegB q prox).email := by
  intro p prox
  cases p
  refine ⟨rfl, rfl, rfl, rfl, rfl, rfl, rfl, rfl, rfl, rfl, rfl, rfl, rfl, rfl, rfl,
    rfl, rfl, rfl, ?_⟩
  intro q
  cases q
  exact ⟨rfl, rfl, rfl, rfl, rfl, rfl, rfl, rfl, rfl, rfl⟩

end CNAB

